import Mathlib

/-! A shallow embedding of the core logic of `src/app/page.tsx` of the
Personal-Finance-Tracker repository: the transaction data model, the
localStorage load effect, form validation (`validateForm`), the
add/edit/delete flows (`handleSubmit`, `handleDelete`), and the three
aggregators (`getMonthlyData`, `getCategoryData`, and the current-month
totals `totalIncome` / `totalExpenses` / `netIncome`).

Modelling conventions:
* JS numbers are modelled as rationals; `Math.round` is
  `fun x => Int.floor (x + 1/2)` (round half toward positive infinity),
  which is what JS `Math.round` does.
* The source stores a transaction's `date` as an ISO `yyyy-MM-dd` string
  and re-parses it with `parseISO` at every use.  We represent the date by
  its parsed calendar value (year, 0-based month as in JS `getMonth`, day),
  which is faithful for every string the form's `type="date"` input can
  produce.
* `format(d, 'MMM yyyy')` is injective on (month, year) pairs, so a month
  bucket key is represented by the linear month index `year * 12 + month`;
  the JS `new Date(y, m - i, 1)` month normalisation is exactly
  subtraction on this index.
-/

namespace Finance

/-- The `type` field of a transaction: the closed set income | expense,
from the `'income' | 'expense'` union type in the source. -/
inductive TxType
  | income
  | expense
deriving DecidableEq

/-- A calendar date as produced by `parseISO` on a `yyyy-MM-dd` string:
year, 0-based month (as returned by JS `Date.prototype.getMonth`), day. -/
structure Date where
  year : ℤ
  month : Fin 12
  day : ℕ
deriving DecidableEq

/-- The `Transaction` interface of the source (`src/app/page.tsx`,
lines 17-25), with the `date` string represented by its parsed calendar
value and `amount` by a rational. -/
structure Transaction where
  id : String
  amount : ℚ
  date : Date
  description : String
  type : TxType
  category : String
  createdAt : String
deriving DecidableEq

/-- The form payload `formData` of the source (lines 47-53): `amount`,
`date`, `description` and `category` are raw strings exactly as typed. -/
structure FormData where
  amount : String
  date : String
  description : String
  type : TxType
  category : String
deriving DecidableEq

/-- The `errors` record produced by `validateForm` (a
`Record<string, string>` in the source, with exactly these four possible
keys); `none` means the key is absent. -/
structure FieldErrors where
  amount : Option String
  date : Option String
  description : Option String
  category : Option String
deriving DecidableEq

/-- The linear month index `year * 12 + month` of a date.  Two dates have
the same `format 'MMM yyyy'` key iff they have the same month index. -/
def monthIndex (d : Date) : ℤ :=
  d.year * 12 + (d.month : ℤ)

/-- JS `Math.round`: nearest integer, halves toward positive infinity. -/
def jsRound (x : ℚ) : ℤ :=
  Int.floor (x + 1 / 2)

/-- The rounding step `Math.round(amount * 100) / 100` used by
`getMonthlyData` (line 165) and `getCategoryData` (line 180). -/
def round2 (x : ℚ) : ℚ :=
  (jsRound (x * 100) : ℚ) / 100

/-- Numeric value of a decimal digit character. -/
def digitVal (c : Char) : ℕ :=
  c.toNat - '0'.toNat

/-- Value of a list of decimal digit characters, most significant first. -/
def digitsToNat (ds : List Char) : ℕ :=
  ds.foldl (fun n c => 10 * n + digitVal c) 0

/-- JS `parseFloat`, restricted to finite decimal literals: skip leading
whitespace, optional sign, integer digits, optional fraction digits; the
longest valid prefix is used and `none` models `NaN` (no digits at all).
Exponent suffixes and the `Infinity` literals of full JS `parseFloat` are
not modelled; they cannot change the sign of a parsed finite value, so
they do not affect any verdict below. -/
def parseFloat (s : String) : Option ℚ :=
  let cs := s.data.dropWhile Char.isWhitespace
  let signed : Bool × List Char :=
    match cs with
    | '-' :: r => (true, r)
    | '+' :: r => (false, r)
    | _ => (false, cs)
  let ip := signed.2.takeWhile Char.isDigit
  let rest := signed.2.dropWhile Char.isDigit
  let fp : List Char :=
    match rest with
    | '.' :: r => r.takeWhile Char.isDigit
    | _ => []
  if ip = [] ∧ fp = [] then none
  else
    let mag : ℚ := (digitsToNat ip : ℚ) + (digitsToNat fp : ℚ) / ((10 : ℚ) ^ fp.length)
    some (if signed.1 then -mag else mag)

/-- JS `String.prototype.trim`: strip leading and trailing whitespace.
Implemented structurally over the character list so that it is fully
executable. -/
def jsTrim (s : String) : String :=
  ⟨((s.data.dropWhile Char.isWhitespace).reverse.dropWhile Char.isWhitespace).reverse⟩

/-- The JS comparison `parseFloat(s) <= 0` as a boolean: `NaN <= 0` is
`false`, so the `none` case yields `false`. -/
def leZero : Option ℚ → Bool
  | some q => decide (q ≤ 0)
  | none => false

/-- First check of `validateForm` (lines 72-74):
`if (!formData.amount || parseFloat(formData.amount) <= 0)` sets the
`amount` error (the empty string is the only falsy form value here). -/
def applyAmountCheck (f : FormData) (e : FieldErrors) : FieldErrors :=
  if f.amount = "" ∨ leZero (parseFloat f.amount) = true then
    { e with amount := some "Amount must be greater than 0" }
  else e

/-- Second check of `validateForm` (lines 75-77): `if (!formData.date)`. -/
def applyDateCheck (f : FormData) (e : FieldErrors) : FieldErrors :=
  if f.date = "" then { e with date := some "Date is required" } else e

/-- Third check of `validateForm` (lines 78-80):
`if (!formData.description.trim())`. -/
def applyDescriptionCheck (f : FormData) (e : FieldErrors) : FieldErrors :=
  if jsTrim f.description = "" then
    { e with description := some "Description is required" }
  else e

/-- Fourth check of `validateForm` (lines 81-83): `if (!formData.category)`. -/
def applyCategoryCheck (f : FormData) (e : FieldErrors) : FieldErrors :=
  if f.category = "" then { e with category := some "Category is required" } else e

/-- The error record built by `validateForm` (lines 69-87): the four
checks run unconditionally, in order, each setting only its own key. -/
def validateForm (f : FormData) : FieldErrors :=
  applyCategoryCheck f
    (applyDescriptionCheck f
      (applyDateCheck f
        (applyAmountCheck f ⟨none, none, none, none⟩)))

/-- The record with no keys, meaning `Object.keys(newErrors).length === 0`. -/
def noErrors : FieldErrors :=
  ⟨none, none, none, none⟩

/-- The transaction built by `handleSubmit` (lines 93-101).
`editing` is `editingTransaction` (`none` in the Add flow), `now` is
`Date.now()` in milliseconds, `nowISO` is `new Date().toISOString()` and
`dateVal` is the calendar value of the form's date string.
The source uses JS `||`, whose only falsy `String` value here is `""`,
hence the explicit empty-string fallbacks.  `parseFloat` yielding `NaN`
(outside our numeric model) is defaulted to `0` by `getD`; no claim below
depends on the amount stored for a non-numeric form amount. -/
def buildTx (editing : Option Transaction) (now : ℕ) (nowISO : String)
    (dateVal : Date) (f : FormData) : Transaction :=
  { id :=
      match editing with
      | some e => if e.id = "" then toString now else e.id
      | none => toString now
    amount := (parseFloat f.amount).getD 0
    date := dateVal
    description := jsTrim f.description
    type := f.type
    category := f.category
    createdAt :=
      match editing with
      | some e => if e.createdAt = "" then nowISO else e.createdAt
      | none => nowISO }

/-- The Add branch of `handleSubmit` (line 108):
`setTransactions(prev => [...prev, transaction])`. -/
def addFlow (now : ℕ) (nowISO : String) (dateVal : Date) (f : FormData)
    (ts : List Transaction) : List Transaction :=
  ts ++ [buildTx none now nowISO dateVal f]

/-- The Edit branch of `handleSubmit` (line 104):
`setTransactions(prev => prev.map(t => t.id === editingTransaction.id ? transaction : t))`. -/
def editFlow (editing : Transaction) (now : ℕ) (nowISO : String)
    (dateVal : Date) (f : FormData) (ts : List Transaction) : List Transaction :=
  ts.map (fun t =>
    if t.id = editing.id then buildTx (some editing) now nowISO dateVal f else t)

/-- The `handleDelete` operation (lines 138-140):
`setTransactions(prev => prev.filter(t => t.id !== id))`. -/
def removeTx (i : String) (ts : List Transaction) : List Transaction :=
  ts.filter (fun t => t.id ≠ i)

/-- The id-uniqueness invariant of the data model. -/
def idsUnique (ts : List Transaction) : Prop :=
  (ts.map Transaction.id).Nodup

instance (ts : List Transaction) : Decidable (idsUnique ts) :=
  inferInstanceAs (Decidable ((ts.map Transaction.id).Nodup))

/-- The startup load effect (lines 57-62).  `slot` is
`localStorage.getItem('finance-transactions')` (`none` when the key is
absent); the JS truthiness test `if (savedTransactions)` also skips the
empty string.  `parse` stands for `JSON.parse` followed by use as a
`Transaction[]`; `parse s = none` means `JSON.parse` throws on `s`.  The
source wraps the call in no try/catch, so a throw escapes the effect:
this is the `Except.error` outcome, carrying the offending content. -/
def load (parse : String → Option (List Transaction)) (slot : Option String) :
    Except String (List Transaction) :=
  match slot with
  | none => Except.ok []
  | some s =>
    if s = "" then Except.ok []
    else
      match parse s with
      | some ts => Except.ok ts
      | none => Except.error s

/-- The 12 bucket keys built by the loop at lines 147-151, oldest first:
month indices `now - 11, ..., now` where `now` is the current month index. -/
def monthKeys (now : ℤ) : List ℤ :=
  (List.range 12).map (fun j : ℕ => now - 11 + (j : ℤ))

/-- The `monthlyData` record after the initialisation loop: every one of
the 12 keys maps to `0`, in insertion order (oldest month first). -/
def initBuckets (now : ℤ) : List (ℤ × ℚ) :=
  (monthKeys now).map (fun k => (k, 0))

/-- One step of the accumulation loop at lines 153-161: if the key is
present (`hasOwnProperty`), add the amount to it; otherwise do nothing.
Adding to every entry carrying the key is the same thing, since absent
keys match no entry and present keys occur once. -/
def bumpBucket (l : List (ℤ × ℚ)) (k : ℤ) (a : ℚ) : List (ℤ × ℚ) :=
  l.map (fun p => if p.1 = k then (p.1, p.2 + a) else p)

/-- The `getMonthlyData` aggregator (lines 142-167): initialise the 12
buckets, accumulate every expense whose month key is one of them, then
round each bucket with `Math.round(amount * 100) / 100`.  `now` is the
month index of `new Date()` at evaluation time. -/
def getMonthlyData (now : ℤ) (ts : List Transaction) : List (ℤ × ℚ) :=
  (((ts.filter (fun t => t.type = TxType.expense)).foldl
      (fun acc t => bumpBucket acc (monthIndex t.date) t.amount)
      (initBuckets now)).map (fun p => (p.1, round2 p.2)))

/-- Sum of the amounts of the `kind = expense` transactions whose
(month, year) is exactly the bucket `k`. -/
def expenseSumInMonth (k : ℤ) (ts : List Transaction) : ℚ :=
  (((ts.filter (fun t => t.type = TxType.expense)).filter
      (fun t => monthIndex t.date = k)).map Transaction.amount).sum

/-- One step of the accumulation loop of `getCategoryData` (lines 172-176):
`categoryData[c] = (categoryData[c] || 0) + amount`.  A present key is
updated in place, an absent key is appended (JS object insertion order);
the `|| 0` also turns a stored `0` into `0`, so it is value-preserving. -/
def addCat (l : List (String × ℚ)) (c : String) (a : ℚ) : List (String × ℚ) :=
  if l.any (fun p => p.1 = c) then
    l.map (fun p => if p.1 = c then (p.1, p.2 + a) else p)
  else l ++ [(c, a)]

/-- First-match lookup in an association list of category rows. -/
def lookupCat (c : String) : List (String × ℚ) → Option ℚ
  | [] => none
  | p :: rest => if p.1 = c then some p.2 else lookupCat c rest

/-- The `getCategoryData` aggregator (lines 169-182): group the expense
amounts by category starting from the empty record, then round each sum
with `Math.round(amount * 100) / 100`. -/
def getCategoryData (ts : List Transaction) : List (String × ℚ) :=
  (((ts.filter (fun t => t.type = TxType.expense)).foldl
      (fun acc t => addCat acc t.category t.amount) []).map
    (fun p => (p.1, round2 p.2)))

/-- Sum of the amounts of the `kind = expense` transactions in category `c`. -/
def catSum (c : String) (ts : List Transaction) : ℚ :=
  (((ts.filter (fun t => t.type = TxType.expense)).filter
      (fun t => t.category = c)).map Transaction.amount).sum

/-- The `currentMonthTransactions` filter (lines 188-191).  For a
calendar date parsed by `parseISO` (midnight local time),
`isWithinInterval(d, [startOfMonth(now), endOfMonth(now)])` holds iff the
date's (month, year) equals the current one, i.e. iff the month indices
agree. -/
def currentMonthTransactions (now : ℤ) (ts : List Transaction) : List Transaction :=
  ts.filter (fun t => monthIndex t.date = now)

/-- The `totalIncome` reduction (lines 193-195). -/
def totalIncome (now : ℤ) (ts : List Transaction) : ℚ :=
  ((currentMonthTransactions now ts).filter (fun t => t.type = TxType.income)).foldl
    (fun s t => s + t.amount) 0

/-- The `totalExpenses` reduction (lines 197-199). -/
def totalExpenses (now : ℤ) (ts : List Transaction) : ℚ :=
  ((currentMonthTransactions now ts).filter (fun t => t.type = TxType.expense)).foldl
    (fun s t => s + t.amount) 0

/-- The `netIncome` value (line 201). -/
def netIncome (now : ℤ) (ts : List Transaction) : ℚ :=
  totalIncome now ts - totalExpenses now ts

/-- Sum of the current-month income amounts (filter order as in the source:
interval first, then type). -/
def monthIncomeSum (now : ℤ) (ts : List Transaction) : ℚ :=
  (((ts.filter (fun t => monthIndex t.date = now)).filter
      (fun t => t.type = TxType.income)).map Transaction.amount).sum

/-- Sum of the current-month expense amounts. -/
def monthExpenseSum (now : ℤ) (ts : List Transaction) : ℚ :=
  (((ts.filter (fun t => monthIndex t.date = now)).filter
      (fun t => t.type = TxType.expense)).map Transaction.amount).sum

/-- Sample date: 2024-05-15 (month index 0-based, so May is 4). -/
def d0 : Date := ⟨2024, 4, 15⟩

/-- Sample date: 2024-05-20. -/
def d1 : Date := ⟨2024, 4, 20⟩

/-- Sample stored transaction. -/
def tx0 : Transaction :=
  ⟨"100", 25, d0, "lunch", TxType.expense, "Food & Dining", "2024-05-01T10:00:00.000Z"⟩

/-- Second sample stored transaction, distinct id. -/
def txB : Transaction :=
  ⟨"200", 50, d0, "book", TxType.expense, "Shopping", "2024-05-02T10:00:00.000Z"⟩

/-- Sample transaction whose id is the millisecond-clock string "5". -/
def tx5 : Transaction :=
  ⟨"5", 1, d0, "old", TxType.expense, "Other", "2024-05-03T10:00:00.000Z"⟩

/-- Sample transaction with a positive amount below half a cent. -/
def tx001 : Transaction :=
  ⟨"1", 1 / 1000, d0, "tiny", TxType.expense, "Food & Dining", "2024-05-04T10:00:00.000Z"⟩

/-- Form payload whose amount is a non-numeric string and whose other
fields are all valid. -/
def fAbc : FormData := ⟨"abc", "2024-05-20", "lunch", TxType.expense, "Food & Dining"⟩

/-- Form payload with every field missing (empty / whitespace only). -/
def fEmpty : FormData := ⟨"", "", " ", TxType.expense, ""⟩

/-- Fully valid form payload (description has surrounding whitespace). -/
def f5 : FormData := ⟨"10", "2024-05-20", " groceries ", TxType.expense, "Food & Dining"⟩

lemma validateForm_eq (f : FormData) :
    validateForm f =
      ⟨if f.amount = "" ∨ leZero (parseFloat f.amount) = true then
          some "Amount must be greater than 0" else none,
        if f.date = "" then some "Date is required" else none,
        if jsTrim f.description = "" then some "Description is required" else none,
        if f.category = "" then some "Category is required" else none⟩ := by
  unfold validateForm applyCategoryCheck applyDescriptionCheck applyDateCheck applyAmountCheck
  split <;> split <;> split <;> split <;> rfl

lemma validateForm_amount (f : FormData) :
    (validateForm f).amount =
      if f.amount = "" ∨ leZero (parseFloat f.amount) = true then
        some "Amount must be greater than 0" else none := by
  rw [validateForm_eq]

lemma validateForm_date (f : FormData) :
    (validateForm f).date = if f.date = "" then some "Date is required" else none := by
  rw [validateForm_eq]

lemma validateForm_description (f : FormData) :
    (validateForm f).description =
      if jsTrim f.description = "" then some "Description is required" else none := by
  rw [validateForm_eq]

lemma validateForm_category (f : FormData) :
    (validateForm f).category =
      if f.category = "" then some "Category is required" else none := by
  rw [validateForm_eq]

lemma leZero_eq_true_iff (o : Option ℚ) : leZero o = true ↔ ∃ q, o = some q ∧ q ≤ 0 := by
  cases o with
  | none => simp [leZero]
  | some q => simp [leZero]

/-- C1 (code evaluated at the failing input): when the persistent slot is
missing, the load effect yields the empty collection; but when the stored
content is unparseable (modelled by a parse function that rejects it), the
exception escapes the effect instead of being recovered into the empty
collection — the source has no try/catch around `JSON.parse`. -/
theorem c1_load_on_failure :
    (∀ parse, load parse none = Except.ok []) ∧
    load (fun _ => none) (some "not valid json") = Except.error "not valid json" :=
  ⟨fun _ => rfl, rfl⟩

/-- C2 counterexample: the payload `fAbc` has the non-numeric amount
string "abc" (parseFloat yields NaN, modelled as `none`), yet
`validateForm` reports no amount error, because JS `NaN <= 0` is false.
This falsifies the claim that a non-numeric amount always yields the
amount error. -/
theorem c2_counterexample :
    parseFloat "abc" = none ∧ (validateForm fAbc).amount = none :=
  ⟨rfl, by decide⟩

/-- C2 (amended): the amount error is reported exactly when the amount
field is empty or parses to a value less than or equal to 0, regardless of
the other fields; a non-empty amount on which parseFloat fails (NaN)
yields no amount error. -/
theorem c2_amount_error_iff (f : FormData) :
    (validateForm f).amount = some "Amount must be greater than 0" ↔
      f.amount = "" ∨ ∃ q, parseFloat f.amount = some q ∧ q ≤ 0 := by
  rw [validateForm_amount]
  by_cases h : f.amount = "" ∨ leZero (parseFloat f.amount) = true
  · rw [if_pos h]
    rw [leZero_eq_true_iff] at h
    exact iff_of_true rfl h
  · rw [if_neg h]
    rw [leZero_eq_true_iff] at h
    exact iff_of_false (by simp) h

/-- C2 witness: the amended theorem applied to the concrete payload with
an empty amount yields the amount error. -/
theorem c2_witness : (validateForm fEmpty).amount = some "Amount must be greater than 0" :=
  (c2_amount_error_iff fEmpty).mpr (Or.inl rfl)

/-- C4: `validateForm` checks all four field rules independently and
returns all failing fields' errors together (the full record is the
four per-field checks side by side — not fail-fast); a payload missing
amount, date, description or category gets the corresponding error key,
and a fully valid payload yields the empty record. -/
theorem c4_validate_all_fields (f : FormData) :
    (validateForm f =
      ⟨if f.amount = "" ∨ leZero (parseFloat f.amount) = true then
          some "Amount must be greater than 0" else none,
        if f.date = "" then some "Date is required" else none,
        if jsTrim f.description = "" then some "Description is required" else none,
        if f.category = "" then some "Category is required" else none⟩) ∧
    (f.amount = "" → (validateForm f).amount = some "Amount must be greater than 0") ∧
    (f.date = "" → (validateForm f).date = some "Date is required") ∧
    (jsTrim f.description = "" → (validateForm f).description = some "Description is required") ∧
    (f.category = "" → (validateForm f).category = some "Category is required") ∧
    ((∃ q, parseFloat f.amount = some q ∧ 0 < q) → f.date ≠ "" → jsTrim f.description ≠ "" →
      f.category ≠ "" → validateForm f = noErrors) := by
  refine ⟨validateForm_eq f, ?_, ?_, ?_, ?_, ?_⟩
  · intro h; rw [validateForm_amount, if_pos (Or.inl h)]
  · intro h; rw [validateForm_date, if_pos h]
  · intro h; rw [validateForm_description, if_pos h]
  · intro h; rw [validateForm_category, if_pos h]
  · rintro ⟨q, hq, hq0⟩ hd hde hc
    have hne : f.amount ≠ "" := by
      intro he
      have h0 : parseFloat "" = none := rfl
      rw [he, h0] at hq
      cases hq
    have hle : leZero (parseFloat f.amount) = false := by
      rw [hq]
      simp only [leZero, decide_eq_false_iff_not]
      exact not_le.mpr hq0
    have hna : ¬(f.amount = "" ∨ leZero (parseFloat f.amount) = true) := by
      rintro (h | h)
      · exact hne h
      · rw [hle] at h; cases h
    rw [validateForm_eq, if_neg hna, if_neg hd, if_neg hde, if_neg hc]
    rfl

/-- C4 witness: for the concrete payload with every field missing, the
theorem yields the specific date error. -/
theorem c4_witness : (validateForm fEmpty).date = some "Date is required" :=
  (c4_validate_all_fields fEmpty).2.2.1 rfl

/-- C9: after `remove(id)` the collection contains no record with that
id; removing the same id twice is an idempotent no-op, and removing an id
not present leaves the collection unchanged. -/
theorem c9_remove_idempotent (i : String) (ts : List Transaction) :
    (∀ t ∈ removeTx i ts, t.id ≠ i) ∧
    removeTx i (removeTx i ts) = removeTx i ts ∧
    ((∀ t ∈ ts, t.id ≠ i) → removeTx i ts = ts) := by
  refine ⟨?_, ?_, ?_⟩
  · intro t ht
    simpa using (List.mem_filter.mp ht).2
  · apply List.filter_eq_self.mpr
    intro t ht
    exact (List.mem_filter.mp ht).2
  · intro h
    apply List.filter_eq_self.mpr
    intro t ht
    simpa using h t ht

/-- C9 witness: removing an absent id from a concrete collection leaves
it unchanged. -/
theorem c9_witness : removeTx "9" [tx0] = [tx0] :=
  (c9_remove_idempotent "9" [tx0]).2.2 (by decide)

/-- C10: the delete operation removes every record whose id equals the
given id (so duplicated ids are all removed in one call), and the
remaining records are the untouched non-matching ones in their original
relative order (a sublist of the original collection). -/
theorem c10_delete_all_matching (i : String) (ts : List Transaction) :
    List.Sublist (removeTx i ts) ts ∧
    (∀ t ∈ removeTx i ts, t.id ≠ i) ∧
    (∀ t ∈ ts, t.id ≠ i → t ∈ removeTx i ts) := by
  refine ⟨List.filter_sublist ts, ?_, ?_⟩
  · intro t ht
    simpa using (List.mem_filter.mp ht).2
  · intro t ht h
    exact List.mem_filter.mpr ⟨ht, by simpa using h⟩

/-- C10 witness: a concrete non-matching record survives the delete. -/
theorem c10_witness : tx0 ∈ removeTx "5" [tx5, tx0] :=
  (c10_delete_all_matching "5" [tx5, tx0]).2.2 tx0 (by decide) (by decide)

lemma foldl_add_amount (l : List Transaction) :
    ∀ s : ℚ, l.foldl (fun s t => s + t.amount) s = s + (l.map Transaction.amount).sum := by
  induction l with
  | nil => intro s; simp
  | cons t rest ih =>
    intro s
    rw [List.foldl_cons, ih, List.map_cons, List.sum_cons, add_assoc]

/-- C8: the current-month totals are the plain, unrounded sums of the
amounts of the income (resp. expense) transactions dated in the current
month, and the net income is their difference. -/
theorem c8_current_month_totals (now : ℤ) (ts : List Transaction) :
    totalIncome now ts = monthIncomeSum now ts ∧
    totalExpenses now ts = monthExpenseSum now ts ∧
    netIncome now ts = totalIncome now ts - totalExpenses now ts := by
  refine ⟨?_, ?_, rfl⟩
  · unfold totalIncome monthIncomeSum currentMonthTransactions
    rw [foldl_add_amount, zero_add]
  · unfold totalExpenses monthExpenseSum currentMonthTransactions
    rw [foldl_add_amount, zero_add]

/-- C6 counterexample: the Add flow run at millisecond clock 5 against a
collection already holding a transaction with id "5" produces a duplicate
id — `Date.now().toString()` is not checked for freshness, so the claim
that add always assigns an id distinct from every existing id is false. -/
theorem c6_counterexample :
    (buildTx none 5 "iso" d0 f5).id = "5" ∧ ¬ idsUnique (addFlow 5 "iso" d0 f5 [tx5]) := by
  exact ⟨rfl, by decide⟩

/-- C6 (amended): add assigns the millisecond clock reading as the new
id, so it preserves id-uniqueness only when that string differs from
every stored id; the edit flow leaves the list of ids unchanged (for a
record with a non-empty id, as every record created by the app has), and
remove always preserves uniqueness. -/
theorem c6_amended (ts : List Transaction) (now : ℕ) (nowISO : String)
    (dateVal : Date) (f : FormData) (editing : Transaction) (i : String) :
    (idsUnique ts → toString now ∉ ts.map Transaction.id →
      idsUnique (addFlow now nowISO dateVal f ts)) ∧
    (idsUnique ts → editing.id ≠ "" →
      idsUnique (editFlow editing now nowISO dateVal f ts)) ∧
    (idsUnique ts → idsUnique (removeTx i ts)) := by
  refine ⟨?_, ?_, ?_⟩
  · intro h hnot
    unfold idsUnique addFlow
    rw [List.map_append, List.nodup_append]
    refine ⟨h, List.nodup_singleton _, ?_⟩
    intro a ha hb
    have hab : a = toString now := by
      simpa [buildTx] using hb
    exact hnot (hab ▸ ha)
  · intro h hid
    unfold idsUnique editFlow
    rw [List.map_map]
    have he : ∀ t ∈ ts,
        (Transaction.id ∘ fun t =>
          if t.id = editing.id then buildTx (some editing) now nowISO dateVal f else t) t =
          Transaction.id t := by
      intro t ht
      by_cases hc : t.id = editing.id
      · simp [Function.comp, hc, buildTx, hid]
      · simp [Function.comp, hc]
    rw [List.map_congr_left he]
    exact h
  · intro h
    unfold idsUnique removeTx
    exact h.sublist ((List.filter_sublist ts).map Transaction.id)

/-- C6 witness: remove preserves id-uniqueness on a concrete collection. -/
theorem c6_witness : idsUnique (removeTx "100" [tx0, txB]) :=
  (c6_amended [tx0, txB] 0 "" d0 f5 tx0 "100").2.2 (by decide)

/-- C7: the edit flow replaces exactly the positions holding the edited
id: the new record keeps the original's id and createdAt while amount,
date, description, type and category come from the submitted payload;
every position with a different id is untouched; if no stored id matches,
the collection is unchanged; and under the id-uniqueness invariant the
matching record is the edited original itself. -/
theorem c7_update_semantics (editing : Transaction) (now : ℕ) (nowISO : String)
    (dateVal : Date) (f : FormData) (ts : List Transaction)
    (hid : editing.id ≠ "") (hca : editing.createdAt ≠ "") :
    (∀ (i : ℕ) (t : Transaction), ts[i]? = some t → t.id ≠ editing.id →
      (editFlow editing now nowISO dateVal f ts)[i]? = some t) ∧
    (∀ (i : ℕ) (t : Transaction), ts[i]? = some t → t.id = editing.id →
      (editFlow editing now nowISO dateVal f ts)[i]? = some
        { id := editing.id
          amount := (parseFloat f.amount).getD 0
          date := dateVal
          description := jsTrim f.description
          type := f.type
          category := f.category
          createdAt := editing.createdAt }) ∧
    ((∀ t ∈ ts, t.id ≠ editing.id) → editFlow editing now nowISO dateVal f ts = ts) ∧
    (editing ∈ ts → idsUnique ts → ∀ t ∈ ts, t.id = editing.id → t = editing) := by
  refine ⟨?_, ?_, ?_, ?_⟩
  · intro i t hi hne
    unfold editFlow
    rw [List.getElem?_map, hi]
    simp [hne]
  · intro i t hi heq
    unfold editFlow
    rw [List.getElem?_map, hi]
    simp [heq, buildTx, hid, hca]
  · intro h
    unfold editFlow
    have he : ∀ t ∈ ts,
        (if t.id = editing.id then buildTx (some editing) now nowISO dateVal f else t) = id t := by
      intro t ht
      rw [if_neg (h t ht)]
      rfl
    rw [List.map_congr_left he, List.map_id]
  · intro hmem hnd t ht heq
    exact List.inj_on_of_nodup_map hnd ht hmem heq

/-- C7 witness: editing the concrete record `tx0` in a two-element
collection yields, at its position, the record carrying the submitted
fields together with the original id and createdAt. -/
theorem c7_witness :
    (editFlow tx0 999 "z" d1 f5 [tx0, txB])[0]? = some
      { id := tx0.id
        amount := (parseFloat f5.amount).getD 0
        date := d1
        description := jsTrim f5.description
        type := f5.type
        category := f5.category
        createdAt := tx0.createdAt } :=
  (c7_update_semantics tx0 999 "z" d1 f5 [tx0, txB] (by decide) (by decide)).2.1 0 tx0 rfl rfl

lemma round2_zero : round2 0 = 0 := by
  norm_num [round2, jsRound]

lemma foldl_bump (ts' : List Transaction) :
    ∀ l : List (ℤ × ℚ),
      ts'.foldl (fun acc t => bumpBucket acc (monthIndex t.date) t.amount) l =
        l.map (fun p =>
          (p.1, p.2 + ((ts'.filter (fun t => monthIndex t.date = p.1)).map
            Transaction.amount).sum)) := by
  induction ts' with
  | nil =>
    intro l
    simp
  | cons t rest ih =>
    intro l
    rw [List.foldl_cons, ih]
    unfold bumpBucket
    rw [List.map_map]
    refine List.map_congr_left ?_
    intro p hp
    by_cases hk : p.1 = monthIndex t.date
    · simp only [Function.comp, if_pos hk, List.filter_cons]
      rw [if_pos (by simpa using hk.symm)]
      simp [add_assoc]
    · simp only [Function.comp, if_neg hk, List.filter_cons]
      rw [if_neg (by simpa using fun h => hk h.symm)]

lemma getMonthlyData_eq (now : ℤ) (ts : List Transaction) :
    getMonthlyData now ts =
      (List.range 12).map (fun j : ℕ =>
        (now - 11 + (j : ℤ), round2 (expenseSumInMonth (now - 11 + (j : ℤ)) ts))) := by
  unfold getMonthlyData initBuckets monthKeys
  rw [foldl_bump, List.map_map, List.map_map, List.map_map]
  refine List.map_congr_left ?_
  intro j hj
  simp only [Function.comp]
  rw [zero_add]
  rfl

/-- C3: the monthly expense series has exactly 12 entries, one per
calendar month for the 12 consecutive months ending at the current month
(oldest first); the entry for each bucket is the sum of the amounts of
the expense transactions whose (month, year) exactly matches it, rounded
to the nearest cent by `Math.round(x * 100) / 100` (so months outside the
window contribute nothing); on the empty collection every entry is 0. -/
theorem c3_monthly_series (now : ℤ) (ts : List Transaction) :
    (getMonthlyData now ts).length = 12 ∧
    (∀ j : Fin 12, (getMonthlyData now ts)[(j : ℕ)]? =
      some (now - 11 + ((j : ℕ) : ℤ),
        round2 (expenseSumInMonth (now - 11 + ((j : ℕ) : ℤ)) ts))) ∧
    getMonthlyData now [] =
      (List.range 12).map (fun j : ℕ => (now - 11 + (j : ℤ), (0 : ℚ))) := by
  refine ⟨?_, ?_, ?_⟩
  · rw [getMonthlyData_eq, List.length_map, List.length_range]
  · intro j
    rw [getMonthlyData_eq, List.getElem?_map, List.getElem?_range j.isLt]
    rfl
  · rw [getMonthlyData_eq]
    refine List.map_congr_left ?_
    intro j hj
    have hs : expenseSumInMonth (now - 11 + (j : ℤ)) ([] : List Transaction) = 0 := rfl
    rw [hs, round2_zero]

lemma lookupCat_map_round (c : String) (l : List (String × ℚ)) :
    lookupCat c (l.map (fun p => (p.1, round2 p.2))) = (lookupCat c l).map round2 := by
  induction l with
  | nil => rfl
  | cons p rest ih =>
    by_cases h : p.1 = c
    · simp [lookupCat, h]
    · simp [lookupCat, h, ih]

lemma lookupCat_bump_eq (c : String) (a : ℚ) (l : List (String × ℚ)) :
    lookupCat c (l.map (fun p => if p.1 = c then (p.1, p.2 + a) else p)) =
      (lookupCat c l).map (fun v => v + a) := by
  induction l with
  | nil => rfl
  | cons p rest ih =>
    by_cases h : p.1 = c
    · simp [lookupCat, h]
    · simp [lookupCat, h, ih]

lemma lookupCat_bump_ne (c cb : String) (a : ℚ) (h : c ≠ cb) (l : List (String × ℚ)) :
    lookupCat c (l.map (fun p => if p.1 = cb then (p.1, p.2 + a) else p)) = lookupCat c l := by
  induction l with
  | nil => rfl
  | cons p rest ih =>
    rw [List.map_cons]
    by_cases hp : p.1 = cb
    · rw [if_pos hp]
      have hpc : ¬(p.1 = c) := by
        rw [hp]
        exact fun hh => h hh.symm
      simp only [lookupCat]
      rw [if_neg hpc, if_neg hpc, ih]
    · rw [if_neg hp]
      simp only [lookupCat]
      by_cases hc : p.1 = c
      · rw [if_pos hc, if_pos hc]
      · rw [if_neg hc, if_neg hc, ih]

lemma lookupCat_append_of_some (c : String) (x : String × ℚ) (l : List (String × ℚ))
    (v : ℚ) (h : lookupCat c l = some v) : lookupCat c (l ++ [x]) = some v := by
  induction l with
  | nil => cases h
  | cons p rest ih =>
    by_cases hp : p.1 = c
    · simp [lookupCat, hp] at h ⊢
      exact h
    · simp [lookupCat, hp] at h ⊢
      exact ih h

lemma lookupCat_append_of_none (c cb : String) (a : ℚ) (l : List (String × ℚ))
    (h : lookupCat c l = none) :
    lookupCat c (l ++ [(cb, a)]) = if cb = c then some a else none := by
  induction l with
  | nil => simp [lookupCat]
  | cons p rest ih =>
    by_cases hp : p.1 = c
    · simp [lookupCat, hp] at h
    · simp [lookupCat, hp] at h ⊢
      exact ih h

lemma any_eq_true_iff_lookupCat (c : String) (l : List (String × ℚ)) :
    l.any (fun p => p.1 = c) = true ↔ (lookupCat c l).isSome = true := by
  induction l with
  | nil => simp [lookupCat]
  | cons p rest ih =>
    by_cases hp : p.1 = c
    · simp [lookupCat, hp]
    · simp [lookupCat, hp, ih]

lemma lookupCat_addCat (c cb : String) (a : ℚ) (l : List (String × ℚ)) :
    lookupCat c (addCat l cb a) =
      if c = cb then some ((lookupCat c l).getD 0 + a) else lookupCat c l := by
  unfold addCat
  by_cases hany : l.any (fun p => p.1 = cb) = true
  · rw [if_pos hany]
    by_cases hc : c = cb
    · subst hc
      rw [lookupCat_bump_eq, if_pos rfl]
      obtain ⟨v, hv⟩ :=
        Option.isSome_iff_exists.mp ((any_eq_true_iff_lookupCat c l).mp hany)
      rw [hv]
      rfl
    · rw [lookupCat_bump_ne c cb a hc, if_neg hc]
  · rw [if_neg hany]
    by_cases hc : c = cb
    · subst hc
      have hnone : lookupCat c l = none := by
        rcases h2 : lookupCat c l with _ | v
        · rfl
        · exact absurd ((any_eq_true_iff_lookupCat c l).mpr (by rw [h2]; rfl)) hany
      rw [lookupCat_append_of_none c c a l hnone, if_pos rfl, if_pos rfl, hnone]
      simp
    · rcases h2 : lookupCat c l with _ | v
      · rw [lookupCat_append_of_none c cb a l h2, if_neg (fun hh => hc hh.symm), if_neg hc]
      · rw [lookupCat_append_of_some c (cb, a) l v h2, if_neg hc]

lemma lookupCat_catFold (tsf : List Transaction) :
    ∀ (l : List (String × ℚ)) (c : String),
      lookupCat c (tsf.foldl (fun acc t => addCat acc t.category t.amount) l) =
        if tsf.any (fun t => t.category = c) = true ∨ (lookupCat c l).isSome = true then
          some ((lookupCat c l).getD 0 +
            ((tsf.filter (fun t => t.category = c)).map Transaction.amount).sum)
        else none := by
  induction tsf with
  | nil =>
    intro l c
    rcases h : lookupCat c l with _ | v
    · simp [h]
    · simp [h]
  | cons t rest ih =>
    intro l c
    rw [List.foldl_cons, ih (addCat l t.category t.amount) c, lookupCat_addCat]
    by_cases hc : c = t.category
    · rw [if_pos hc]
      have hhead : (t :: rest).any (fun t => t.category = c) = true := by
        simp [List.any_cons, hc.symm]
      rw [if_pos (Or.inl hhead)]
      have hsome : (some ((lookupCat c l).getD 0 + t.amount)).isSome = true := rfl
      rw [if_pos (Or.inr hsome)]
      have hfil : (t :: rest).filter (fun t => t.category = c) =
          t :: rest.filter (fun t => t.category = c) := by
        simp [List.filter_cons, hc.symm]
      rw [hfil, List.map_cons, List.sum_cons]
      simp [add_assoc]
    · rw [if_neg hc]
      have hne : ¬(t.category = c) := fun hh => hc hh.symm
      have hhead : (t :: rest).any (fun t => t.category = c) =
          rest.any (fun t => t.category = c) := by
        simp [List.any_cons, hne]
      have hfil : (t :: rest).filter (fun t => t.category = c) =
          rest.filter (fun t => t.category = c) := by
        simp [List.filter_cons, hne]
      rw [hhead, hfil]

lemma fst_addCat (l : List (String × ℚ)) (c : String) (a : ℚ) :
    (addCat l c a).map Prod.fst =
      if l.any (fun p => p.1 = c) = true then l.map Prod.fst
      else l.map Prod.fst ++ [c] := by
  unfold addCat
  by_cases h : l.any (fun p => p.1 = c) = true
  · rw [if_pos h, if_pos h, List.map_map]
    refine List.map_congr_left ?_
    intro p hp
    by_cases hc : p.1 = c
    · simp [Function.comp, hc]
    · simp [Function.comp, hc]
  · rw [if_neg h, if_neg h, List.map_append]
    rfl

lemma nodup_keys_addCat (l : List (String × ℚ)) (c : String) (a : ℚ)
    (h : (l.map Prod.fst).Nodup) : ((addCat l c a).map Prod.fst).Nodup := by
  rw [fst_addCat]
  by_cases hany : l.any (fun p => p.1 = c) = true
  · rw [if_pos hany]
    exact h
  · rw [if_neg hany]
    rw [List.nodup_append]
    refine ⟨h, List.nodup_singleton _, ?_⟩
    intro x hx hx1
    rcases List.mem_map.mp hx with ⟨p, hp, hpx⟩
    rcases List.mem_singleton.mp hx1 with rfl
    exact hany (List.any_eq_true.mpr ⟨p, hp, by simpa using hpx⟩)

lemma nodup_keys_catFold (tsf : List Transaction) :
    ∀ l : List (String × ℚ), (l.map Prod.fst).Nodup →
      ((tsf.foldl (fun acc t => addCat acc t.category t.amount) l).map Prod.fst).Nodup := by
  induction tsf with
  | nil => intro l h; exact h
  | cons t rest ih =>
    intro l h
    rw [List.foldl_cons]
    exact ih (addCat l t.category t.amount) (nodup_keys_addCat l t.category t.amount h)

lemma lookup_getCategoryData (ts : List Transaction) (c : String) :
    lookupCat c (getCategoryData ts) =
      if (ts.filter (fun t => t.type = TxType.expense)).any (fun t => t.category = c) = true
      then some (round2 (catSum c ts))
      else none := by
  unfold getCategoryData
  rw [lookupCat_map_round, lookupCat_catFold]
  by_cases h : (ts.filter (fun t => t.type = TxType.expense)).any
      (fun t => t.category = c) = true
  · rw [if_pos (Or.inl h), if_pos h]
    have hz : (lookupCat c ([] : List (String × ℚ))).getD 0 = 0 := rfl
    rw [hz, zero_add]
    rfl
  · have hfalse : ¬((ts.filter (fun t => t.type = TxType.expense)).any
        (fun t => t.category = c) = true ∨
        (lookupCat c ([] : List (String × ℚ))).isSome = true) := by
      rintro (hh | hh)
      · exact h hh
      · simp [lookupCat] at hh
    rw [if_neg hfalse, if_neg h]
    rfl

/-- C5 (amended): the category breakdown has exactly one row per category
with at least one expense transaction (its keys are pairwise distinct and
a category is present iff some expense transaction carries it), the row
value being the category's expense sum rounded by
`Math.round(x * 100) / 100`; categories with no expense transactions are
absent.  A present row's rounded value can however be exactly 0 when the
positive sum is below half a cent. -/
theorem c5_category_breakdown (ts : List Transaction) :
    ((getCategoryData ts).map Prod.fst).Nodup ∧
    ∀ c : String,
      lookupCat c (getCategoryData ts) =
        if ∃ t ∈ ts, t.type = TxType.expense ∧ t.category = c then
          some (round2 (catSum c ts))
        else none := by
  constructor
  · unfold getCategoryData
    rw [List.map_map]
    have hfst : ∀ p ∈ ((ts.filter (fun t => t.type = TxType.expense)).foldl
        (fun acc t => addCat acc t.category t.amount) []),
        (Prod.fst ∘ fun p => (p.1, round2 p.2)) p = Prod.fst p := fun p _ => rfl
    rw [List.map_congr_left hfst]
    exact nodup_keys_catFold _ [] (by simp)
  · intro c
    rw [lookup_getCategoryData]
    have hiff : ((ts.filter (fun t => t.type = TxType.expense)).any
        (fun t => t.category = c) = true) ↔
        (∃ t ∈ ts, t.type = TxType.expense ∧ t.category = c) := by
      simp [List.any_eq_true, List.mem_filter, and_assoc]
    by_cases h : ∃ t ∈ ts, t.type = TxType.expense ∧ t.category = c
    · rw [if_pos (hiff.mpr h), if_pos h]
    · rw [if_neg (fun hh => h (hiff.mp hh)), if_neg h]

/-- C5 counterexample: the collection holding one expense of 0.001
(positive, accepted by validation) produces a breakdown row whose
computed amount is exactly 0, falsifying the claim that the breakdown
never includes a row with amount 0. -/
theorem c5_counterexample :
    (0 : ℚ) < tx001.amount ∧ getCategoryData [tx001] = [("Food & Dining", 0)] := by
  have h2 : round2 (1 / 1000) = 0 := by
    norm_num [round2, jsRound]
  refine ⟨by norm_num [tx001], ?_⟩
  have h1 : getCategoryData [tx001] = [("Food & Dining", round2 (1 / 1000))] := rfl
  rw [h1, h2]

/-- C5 witness: a category with no expense transaction is absent from the
breakdown of a concrete collection. -/
theorem c5_witness : lookupCat "Shopping" (getCategoryData [tx001]) = none := by
  have h := (c5_category_breakdown [tx001]).2 "Shopping"
  rw [if_neg (by decide)] at h
  exact h

end Finance
